import Mathlib

/-!
Verification of the Apify actor python template
(`src/apify-actor/assets/python-template/src/main.py`).

The template's `main` coroutine is embedded shallowly:

* JSON-compatible Python values are the inductive type `Value`;
  Python truthiness is `Value.truthy`, `dict.get(key, default)` is `dictGet`.
* `range(max_items)` is `rangeOf`: it succeeds on integers and booleans
  (Python's `bool` is a subclass of `int`) and raises `TypeError` otherwise.
* `datetime.now(UTC)` readings are supplied by an environment `Env` as a
  function `clock : Nat → DateTime` giving the reading at the k-th call;
  `DateTime.isoformat` renders the `datetime.isoformat()` string of an
  aware UTC datetime (fraction omitted when the microsecond field is zero,
  offset rendered as `+00:00`), exact for the field bounds Python's
  `datetime` enforces (year ≤ 9999 etc.).
* The effectful steps (`Actor.get_input`, `Actor.push_data`) have their
  outcomes supplied by `Env`; `main` returns the run's outcome together
  with a trace of events, where the `async with Actor:` block contributes
  an `init` event on entry and a `finalize` event on every exit path.
-/

/-- A JSON-compatible Python value. -/
inductive Value where
  | null : Value
  | bool : Bool → Value
  | int : Int → Value
  | str : String → Value
  | list : List Value → Value
  | obj : List (String × Value) → Value

/-- Python truthiness of a JSON-compatible value, as used by
`await Actor.get_input() or {}` (main.py line 17). -/
def Value.truthy : Value → Bool
  | .null => false
  | .bool b => b
  | .int n => n != 0
  | .str s => s != ""
  | .list xs => !xs.isEmpty
  | .obj kvs => !kvs.isEmpty

/-- Lookup of a key in a Python dict (first binding wins; a real dict has
unique keys). -/
def findVal (kvs : List (String × Value)) (k : String) : Option Value :=
  match kvs with
  | [] => none
  | p :: rest => if p.1 = k then some p.2 else findVal rest k

/-- Python's `dict.get(key, default)` (main.py lines 24-25). -/
def dictGet (kvs : List (String × Value)) (k : String) (dflt : Value) : Value :=
  (findVal kvs k).getD dflt

/-- An exception escaping a step of the actor run. -/
inductive Err where
  | sdkFailure : String → Err
  | attributeError : Err
  | rangeTypeError : Err
deriving DecidableEq

/-- An observable event of the run: the context manager's entry and exit,
the log lines, and the `Actor.push_data` call. -/
inductive Event where
  | init : Event
  | logInput : Value → Event
  | logProcessing : Value → Event
  | push : List Value → Event
  | logDone : Nat → Event
  | finalize : Event

/-- Python's `range(v)` for the loop bound (main.py line 32): the indices
`0, …, n-1` for an integer `n` (empty when `n ≤ 0`), booleans counting as
the integers 0 and 1, and a `TypeError` for any other value. -/
def rangeOf : Value → Except Err (List Int)
  | .int n => .ok ((List.range n.toNat).map Int.ofNat)
  | .bool b => .ok ((List.range (if b then 1 else 0)).map Int.ofNat)
  | _ => .error .rangeTypeError

/-- A naive (Gregorian-field) datetime, the shape of Python's
`datetime.datetime` without timezone data. -/
structure DateTime where
  year : Nat
  month : Nat
  day : Nat
  hour : Nat
  minute : Nat
  second : Nat
  microsecond : Nat
deriving DecidableEq

/-- The field bounds Python's `datetime` constructor enforces (day bounds
relaxed to 31 independently of the month). -/
def DateTime.Valid (d : DateTime) : Prop :=
  1 ≤ d.year ∧ d.year ≤ 9999 ∧ 1 ≤ d.month ∧ d.month ≤ 12 ∧
  1 ≤ d.day ∧ d.day ≤ 31 ∧ d.hour ≤ 23 ∧ d.minute ≤ 59 ∧
  d.second ≤ 59 ∧ d.microsecond ≤ 999999

instance (d : DateTime) : Decidable d.Valid := by
  unfold DateTime.Valid; infer_instance

/-- The decimal digit character for `n % 10`. -/
def digitChar (n : Nat) : Char := Char.ofNat (48 + n % 10)

/-- `f"{n:02d}"` for `n ≤ 99`. -/
def pad2 (n : Nat) : List Char := [digitChar (n / 10), digitChar n]

/-- `f"{n:04d}"` for `n ≤ 9999`. -/
def pad4 (n : Nat) : List Char :=
  [digitChar (n / 1000), digitChar (n / 100), digitChar (n / 10), digitChar n]

/-- `f"{n:06d}"` for `n ≤ 999999`. -/
def pad6 (n : Nat) : List Char :=
  [digitChar (n / 100000), digitChar (n / 10000), digitChar (n / 1000),
   digitChar (n / 100), digitChar (n / 10), digitChar n]

/-- The characters of `datetime.isoformat()` on an aware UTC datetime:
`YYYY-MM-DDTHH:MM:SS[.ffffff]+00:00`, the fraction present exactly when
the microsecond field is nonzero. -/
def DateTime.isoChars (d : DateTime) : List Char :=
  pad4 d.year ++ '-' :: pad2 d.month ++ '-' :: pad2 d.day ++
  'T' :: pad2 d.hour ++ ':' :: pad2 d.minute ++ ':' :: pad2 d.second ++
  (if d.microsecond = 0 then [] else '.' :: pad6 d.microsecond) ++
  ['+', '0', '0', ':', '0', '0']

/-- `datetime.now(UTC).isoformat()` (main.py line 35). -/
def DateTime.isoformat (d : DateTime) : String := String.mk d.isoChars

/-- Whether a character is a decimal digit. -/
def isDigit (c : Char) : Bool := 48 ≤ c.toNat && c.toNat ≤ 57

/-- The value of a decimal digit character. -/
def dv (c : Char) : Nat := c.toNat - 48

/-- Parses the tail of a UTC ISO-8601 timestamp after the seconds field:
an optional 6-digit fraction followed by the `+00:00` offset.  Returns the
microsecond count. -/
def parseIsoTail : List Char → Option Nat
  | ['+', '0', '0', ':', '0', '0'] => some 0
  | '.' :: u1 :: u2 :: u3 :: u4 :: u5 :: u6 :: rest =>
    if rest = ['+', '0', '0', ':', '0', '0'] ∧ isDigit u1 ∧ isDigit u2 ∧
       isDigit u3 ∧ isDigit u4 ∧ isDigit u5 ∧ isDigit u6 then
      some (dv u1 * 100000 + dv u2 * 10000 + dv u3 * 1000 + dv u4 * 100 +
        dv u5 * 10 + dv u6)
    else none
  | _ => none

/-- Parser for UTC ISO-8601 timestamps of the form
`YYYY-MM-DDTHH:MM:SS[.ffffff]+00:00` with in-range fields; a string is
valid UTC ISO-8601 iff this returns `some`. -/
def parseIsoUtc : List Char → Option DateTime
  | y1 :: y2 :: y3 :: y4 :: c1 :: m1 :: m2 :: c2 :: d1 :: d2 :: c3 ::
    h1 :: h2 :: c4 :: i1 :: i2 :: c5 :: s1 :: s2 :: rest =>
    if c1 = '-' ∧ c2 = '-' ∧ c3 = 'T' ∧ c4 = ':' ∧ c5 = ':' ∧
       isDigit y1 ∧ isDigit y2 ∧ isDigit y3 ∧ isDigit y4 ∧
       isDigit m1 ∧ isDigit m2 ∧ isDigit d1 ∧ isDigit d2 ∧
       isDigit h1 ∧ isDigit h2 ∧ isDigit i1 ∧ isDigit i2 ∧
       isDigit s1 ∧ isDigit s2 then
      (parseIsoTail rest).bind (fun us =>
        let y := dv y1 * 1000 + dv y2 * 100 + dv y3 * 10 + dv y4
        let mo := dv m1 * 10 + dv m2
        let da := dv d1 * 10 + dv d2
        let h := dv h1 * 10 + dv h2
        let mi := dv i1 * 10 + dv i2
        let s := dv s1 * 10 + dv s2
        if 1 ≤ y ∧ 1 ≤ mo ∧ mo ≤ 12 ∧ 1 ≤ da ∧ da ≤ 31 ∧ h ≤ 23 ∧
           mi ≤ 59 ∧ s ≤ 59 then
          some ⟨y, mo, da, h, mi, s, us⟩
        else none)
    else none
  | _ => none

/-- Chronological order on datetimes as a mixed-radix key: under the field
bounds of `DateTime.Valid`, `key` is monotone in the lexicographic field
order Python uses to compare datetimes. -/
def DateTime.key (d : DateTime) : Nat :=
  (((((d.year * 13 + d.month) * 32 + d.day) * 24 + d.hour) * 60 +
    d.minute) * 60 + d.second) * 1000000 + d.microsecond

/-- The outcomes of the environment-dependent steps of one run: what
`Actor.get_input()` returns (or raises), the successive wall-clock
readings `datetime.now(UTC)` yields, and what `Actor.push_data` does on a
given batch. -/
structure Env where
  inputRes : Except Err Value
  clock : Nat → DateTime
  pushRes : List Value → Except Err Unit

/-- The record literal built in the loop body (main.py line 34):
`{"index": i, "url": start_url, "timestamp": datetime.now(UTC).isoformat()}`. -/
def mkRecord (i : Int) (url : Value) (ts : DateTime) : Value :=
  .obj [("index", .int i), ("url", url), ("timestamp", .str ts.isoformat)]

/-- The body of the `async with Actor:` block (main.py lines 17-40): fetch
the input (falsy inputs replaced by the empty dict), log it, extract
`startUrl` and `maxItems` by `dict.get` with defaults, build one record
per loop index, and push the batch.  An uncaught exception aborts the body
at the failing step. -/
def mainBody (env : Env) : Except Err Unit × List Event :=
  match env.inputRes with
  | .error e => (.error e, [])
  | .ok raw =>
    let actor_input := if raw.truthy then raw else Value.obj []
    match actor_input with
    | .obj kvs =>
      let start_url := dictGet kvs "startUrl" (.str "https://example.com")
      let max_items := dictGet kvs "maxItems" (.int 10)
      match rangeOf max_items with
      | .error e => (.error e, [.logInput (.obj kvs), .logProcessing start_url])
      | .ok idxs =>
        let results := idxs.map (fun i => mkRecord i start_url (env.clock i.toNat))
        match env.pushRes results with
        | .error e =>
          (.error e, [.logInput (.obj kvs), .logProcessing start_url, .push results])
        | .ok _ =>
          (.ok (), [.logInput (.obj kvs), .logProcessing start_url, .push results,
            .logDone results.length])
    | other => (.error .attributeError, [.logInput other])

/-- The `main` coroutine (main.py lines 11-40): the body runs inside
`async with Actor:`, which initializes on entry and finalizes on every
exit path, normal or exceptional; exceptions propagate out unchanged. -/
def Src.main (env : Env) : Except Err Unit × List Event :=
  let r := mainBody env
  (r.1, Event.init :: r.2 ++ [Event.finalize])

/-- The batches submitted through `Actor.push_data` during a run. -/
def pushedBatches (evs : List Event) : List (List Value) :=
  evs.filterMap (fun e => match e with | .push rs => some rs | _ => none)

/-- Field access on an object value. -/
def getField (v : Value) (k : String) : Option Value :=
  match v with
  | .obj kvs => findVal kvs k
  | _ => none

/-- The resolved `startUrl` parameter (main.py line 24). -/
def resolvedStartUrl (kvs : List (String × Value)) : Value :=
  dictGet kvs "startUrl" (.str "https://example.com")

/-- The resolved `maxItems` parameter (main.py line 25). -/
def resolvedMaxItems (kvs : List (String × Value)) : Value :=
  dictGet kvs "maxItems" (.int 10)

/-- The chronological key of a record's timestamp field, when that field
is a string parsing as UTC ISO-8601. -/
def tsKey (r : Value) : Option Nat :=
  match getField r "timestamp" with
  | some (.str t) => (parseIsoUtc t.data).map DateTime.key
  | _ => none

theorem digitChar_toNat (n : Nat) : (digitChar n).toNat = 48 + n % 10 := by
  unfold digitChar
  have h : n % 10 < 10 := Nat.mod_lt _ (by decide)
  set k := n % 10 with hk
  interval_cases k <;> rfl

theorem dv_digitChar (n : Nat) : dv (digitChar n) = n % 10 := by
  simp only [dv, digitChar_toNat]
  omega

theorem isDigit_digitChar (n : Nat) : isDigit (digitChar n) = true := by
  have h : n % 10 < 10 := Nat.mod_lt _ (by decide)
  simp only [isDigit, digitChar_toNat, Bool.and_eq_true, decide_eq_true_eq]
  omega

theorem parseIsoTail_zero : parseIsoTail ['+', '0', '0', ':', '0', '0'] = some 0 := rfl

theorem parseIsoTail_pad6 (us : Nat) :
    parseIsoTail ('.' :: (pad6 us ++ ['+', '0', '0', ':', '0', '0'])) = some (us % 1000000) := by
  simp only [pad6, parseIsoTail, List.cons_append, List.nil_append]
  rw [if_pos]
  · simp only [dv_digitChar, Option.some.injEq]
    omega
  · and_intros <;> first | trivial | exact isDigit_digitChar _

theorem parse_isoformat (d : DateTime) (h : d.Valid) :
    parseIsoUtc d.isoChars = some d := by
  obtain ⟨y, mo, da, hh, mi, ss, us⟩ := d
  obtain ⟨h1, h2, h3, h4, h5, h6, h7, h8, h9, h10⟩ := h
  dsimp only at h1 h2 h3 h4 h5 h6 h7 h8 h9 h10
  by_cases hus : us = 0
  · subst hus
    simp only [DateTime.isoChars, pad4, pad2, reduceIte, List.cons_append,
      List.nil_append, List.append_nil]
    simp only [parseIsoUtc]
    split
    · rw [parseIsoTail_zero]
      simp only [Option.some_bind, dv_digitChar]
      split
      · simp only [Option.some.injEq, DateTime.mk.injEq]
        and_intros <;> first | trivial | omega
      · rename_i hc
        exfalso; apply hc; and_intros <;> omega
    · rename_i hc
      exfalso; apply hc
      and_intros <;> first | trivial | exact isDigit_digitChar _
  · simp only [DateTime.isoChars, pad4, pad2, if_neg hus, List.cons_append,
      List.nil_append, List.append_nil]
    simp only [parseIsoUtc]
    split
    · rw [parseIsoTail_pad6]
      simp only [Option.some_bind, dv_digitChar]
      split
      · simp only [Option.some.injEq, DateTime.mk.injEq]
        and_intros <;> first | trivial | omega
      · rename_i hc
        exfalso; apply hc; and_intros <;> omega
    · rename_i hc
      exfalso; apply hc
      and_intros <;> first | trivial | exact isDigit_digitChar _

theorem truthy_obj (kvs : List (String × Value)) :
    (if (Value.obj kvs).truthy then Value.obj kvs else Value.obj []) = Value.obj kvs := by
  cases kvs <;> rfl

theorem mainBody_run (env : Env) (raw : Value) (kvs : List (String × Value)) (idxs : List Int)
    (hin : env.inputRes = .ok raw)
    (hraw : (if raw.truthy then raw else Value.obj []) = Value.obj kvs)
    (hr : rangeOf (resolvedMaxItems kvs) = .ok idxs) :
    mainBody env =
      (match env.pushRes (idxs.map (fun i => mkRecord i (resolvedStartUrl kvs) (env.clock i.toNat))) with
       | .error e => (.error e,
          [.logInput (.obj kvs), .logProcessing (resolvedStartUrl kvs),
           .push (idxs.map (fun i => mkRecord i (resolvedStartUrl kvs) (env.clock i.toNat)))])
       | .ok _ => (.ok (),
          [.logInput (.obj kvs), .logProcessing (resolvedStartUrl kvs),
           .push (idxs.map (fun i => mkRecord i (resolvedStartUrl kvs) (env.clock i.toNat))),
           .logDone (idxs.map (fun i => mkRecord i (resolvedStartUrl kvs) (env.clock i.toNat))).length])) := by
  have hr' : rangeOf (dictGet kvs "maxItems" (Value.int 10)) = .ok idxs := hr
  simp only [mainBody, hin, hraw, hr', resolvedStartUrl, resolvedMaxItems]

theorem main_run_batches (env : Env) (raw : Value) (kvs : List (String × Value)) (idxs : List Int)
    (hin : env.inputRes = .ok raw)
    (hraw : (if raw.truthy then raw else Value.obj []) = Value.obj kvs)
    (hr : rangeOf (resolvedMaxItems kvs) = .ok idxs) :
    pushedBatches (Src.main env).2 =
      [idxs.map (fun i => mkRecord i (resolvedStartUrl kvs) (env.clock i.toNat))] := by
  simp only [Src.main, mainBody_run env raw kvs idxs hin hraw hr]
  cases env.pushRes (idxs.map (fun i => mkRecord i (resolvedStartUrl kvs) (env.clock i.toNat))) <;>
    simp [pushedBatches]

theorem rangeOf_intNat (N : Nat) :
    rangeOf (.int (N : Int)) = .ok ((List.range N).map Int.ofNat) := by
  simp [rangeOf]

theorem resolved_maxItems_of_find (kvs : List (String × Value)) (v : Value)
    (h : findVal kvs "maxItems" = some v) : resolvedMaxItems kvs = v := by
  simp [resolvedMaxItems, dictGet, h]

theorem getField_mkRecord_index (i : Int) (u : Value) (t : DateTime) :
    getField (mkRecord i u t) "index" = some (.int i) := by
  simp [getField, mkRecord, findVal]

theorem getField_mkRecord_url (i : Int) (u : Value) (t : DateTime) :
    getField (mkRecord i u t) "url" = some u := by
  simp [getField, mkRecord, findVal]

theorem getField_mkRecord_timestamp (i : Int) (u : Value) (t : DateTime) :
    getField (mkRecord i u t) "timestamp" = some (.str t.isoformat) := by
  simp [getField, mkRecord, findVal]

/-- C1: for an input mapping binding `maxItems` to the non-negative integer
N, the run submits exactly N records through a single `push_data` call, and
the `index` fields of the submitted batch are 0, 1, ..., N-1 in order. -/
theorem c1_exact_count_and_indices (env : Env) (kvs : List (String × Value)) (N : Nat)
    (hin : env.inputRes = .ok (.obj kvs))
    (hmax : findVal kvs "maxItems" = some (.int (N : Int))) :
    ∃ rs, pushedBatches (Src.main env).2 = [rs] ∧ rs.length = N ∧
      rs.map (fun r => getField r "index") =
        (List.range N).map (fun i => some (.int (Int.ofNat i))) := by
  have hres : resolvedMaxItems kvs = .int (N : Int) := resolved_maxItems_of_find kvs _ hmax
  have hr : rangeOf (resolvedMaxItems kvs) = .ok ((List.range N).map Int.ofNat) := by
    rw [hres]; exact rangeOf_intNat N
  refine ⟨_, main_run_batches env _ kvs _ hin (truthy_obj kvs) hr, ?_, ?_⟩
  · simp only [List.length_map, List.length_range]
  · rw [List.map_map, List.map_map]
    apply List.map_congr_left
    intro a ha
    simp only [Function.comp_apply, getField_mkRecord_index]

/-- C2: the count of submitted records equals `maxItems` clamped at zero
(`Int.toNat`); in particular a non-positive `maxItems` yields one push of
the empty batch and, when pushing the empty batch succeeds, the run does
not fail. -/
theorem c2_nonpositive_zero_records (env : Env) (kvs : List (String × Value)) (N : Int)
    (hin : env.inputRes = .ok (.obj kvs))
    (hmax : findVal kvs "maxItems" = some (.int N)) :
    ∃ rs, pushedBatches (Src.main env).2 = [rs] ∧ rs.length = N.toNat ∧
      (N ≤ 0 → rs = [] ∧ (env.pushRes [] = .ok () → (Src.main env).1 = .ok ())) := by
  have hres : resolvedMaxItems kvs = .int N := resolved_maxItems_of_find kvs _ hmax
  have hr : rangeOf (resolvedMaxItems kvs) = .ok ((List.range N.toNat).map Int.ofNat) := by
    rw [hres]; rfl
  refine ⟨_, main_run_batches env _ kvs _ hin (truthy_obj kvs) hr, ?_, ?_⟩
  · simp only [List.length_map, List.length_range]
  · intro hN
    have hz : N.toNat = 0 := Int.toNat_of_nonpos hN
    rw [hz]
    simp only [List.range_zero, List.map_nil]
    refine ⟨by trivial, ?_⟩
    intro hp
    have hb := mainBody_run env _ kvs _ hin (truthy_obj kvs) hr
    rw [hz] at hb
    simp only [List.range_zero, List.map_nil, hp] at hb
    simp only [Src.main, hb]

/-- C3: every record of every submitted batch has its `url` field equal to
the resolved `startUrl`: the input's `startUrl` value when the key is
present, otherwise the placeholder default URL. -/
theorem c3_url_field (env : Env) (kvs : List (String × Value))
    (hin : env.inputRes = .ok (.obj kvs)) :
    ((∀ v, findVal kvs "startUrl" = some v → resolvedStartUrl kvs = v) ∧
     (findVal kvs "startUrl" = none →
        resolvedStartUrl kvs = .str "https://example.com")) ∧
    ∀ rs ∈ pushedBatches (Src.main env).2, ∀ r ∈ rs,
      getField r "url" = some (resolvedStartUrl kvs) := by
  refine ⟨⟨?_, ?_⟩, ?_⟩
  · intro v hv; simp [resolvedStartUrl, dictGet, hv]
  · intro hv; simp [resolvedStartUrl, dictGet, hv]
  · intro rs hrs r hr
    rcases hrange : rangeOf (resolvedMaxItems kvs) with e | idxs
    · have hb : (Src.main env).2 =
          [.init, .logInput (.obj kvs), .logProcessing (resolvedStartUrl kvs), .finalize] := by
        simp only [Src.main, mainBody, hin, truthy_obj]
        simp only [resolvedMaxItems, resolvedStartUrl] at hrange ⊢
        simp only [hrange]
        rfl
      rw [hb] at hrs
      simp [pushedBatches] at hrs
    · rw [main_run_batches env _ kvs idxs hin (truthy_obj kvs) hrange] at hrs
      simp only [List.mem_singleton] at hrs
      subst hrs
      simp only [List.mem_map] at hr
      obtain ⟨i, hi, hrec⟩ := hr
      rw [← hrec]
      exact getField_mkRecord_url _ _ _

theorem defaults_run (env : Env)
    (hin : env.inputRes = .ok (.obj []) ∨ env.inputRes = .ok .null) :
    resolvedStartUrl [] = .str "https://example.com" ∧
    resolvedMaxItems [] = .int 10 ∧
    pushedBatches (Src.main env).2 =
      [(List.range 10).map
        (fun i => mkRecord (Int.ofNat i) (.str "https://example.com") (env.clock i))] := by
  refine ⟨rfl, rfl, ?_⟩
  have hr : rangeOf (resolvedMaxItems []) = .ok ((List.range 10).map Int.ofNat) := rfl
  have key : ∀ raw, env.inputRes = .ok raw →
      (if raw.truthy then raw else Value.obj []) = Value.obj [] →
      pushedBatches (Src.main env).2 =
      [(List.range 10).map
        (fun i => mkRecord (Int.ofNat i) (.str "https://example.com") (env.clock i))] := by
    intro raw hin2 hraw
    rw [main_run_batches env raw [] _ hin2 hraw hr]
    rw [List.map_map]
    congr 1
  rcases hin with hin | hin
  · exact key _ hin rfl
  · exact key _ hin rfl

/-- C4: when the retrieved input is the empty mapping or absent (None),
`startUrl` resolves to the placeholder URL, `maxItems` resolves to 10, and
the run pushes exactly the ten records indexed 0..9. -/
theorem c4_defaults (env : Env)
    (hin : env.inputRes = .ok (.obj []) ∨ env.inputRes = .ok .null) :
    resolvedStartUrl [] = .str "https://example.com" ∧
    resolvedMaxItems [] = .int 10 ∧
    pushedBatches (Src.main env).2 =
      [(List.range 10).map
        (fun i => mkRecord (Int.ofNat i) (.str "https://example.com") (env.clock i))] :=
  defaults_run env hin

theorem rangeOf_shape (v : Value) (idxs : List Int) (h : rangeOf v = .ok idxs) :
    ∃ n, idxs = (List.range n).map Int.ofNat := by
  cases v with
  | int n =>
    refine ⟨n.toNat, ?_⟩
    simp only [rangeOf, Except.ok.injEq] at h
    exact h.symm
  | bool b =>
    refine ⟨if b then 1 else 0, ?_⟩
    simp only [rangeOf, Except.ok.injEq] at h
    exact h.symm
  | null => simp [rangeOf] at h
  | str s => simp [rangeOf] at h
  | list xs => simp [rangeOf] at h
  | obj kvs => simp [rangeOf] at h

theorem run_cases (env : Env) :
    pushedBatches (Src.main env).2 = [] ∨
    ∃ raw kvs idxs, env.inputRes = .ok raw ∧
      (if raw.truthy then raw else Value.obj []) = Value.obj kvs ∧
      rangeOf (resolvedMaxItems kvs) = .ok idxs ∧
      pushedBatches (Src.main env).2 =
        [idxs.map (fun i => mkRecord i (resolvedStartUrl kvs) (env.clock i.toNat))] := by
  rcases hin : env.inputRes with e | raw
  · left
    simp [Src.main, mainBody, hin, pushedBatches]
  · rcases hai : (if raw.truthy then raw else Value.obj []) with _ | b | n | s | xs | kvs
    · left; simp [Src.main, mainBody, hin, hai, pushedBatches]
    · left; simp [Src.main, mainBody, hin, hai, pushedBatches]
    · left; simp [Src.main, mainBody, hin, hai, pushedBatches]
    · left; simp [Src.main, mainBody, hin, hai, pushedBatches]
    · left; simp [Src.main, mainBody, hin, hai, pushedBatches]
    · rcases hr : rangeOf (resolvedMaxItems kvs) with e | idxs
      · left
        have hr' : rangeOf (dictGet kvs "maxItems" (Value.int 10)) = .error e := hr
        simp [Src.main, mainBody, hin, hai, hr', pushedBatches]
      · right
        exact ⟨raw, kvs, idxs, rfl, hai, hr, main_run_batches env raw kvs idxs hin hai hr⟩

/-- C5: with the wall clock modelled as returning in-range datetimes whose
chronological keys never decrease between successive readings, every
submitted record's `timestamp` is the ISO-8601 UTC rendering of the clock
reading taken at that record's construction, it parses back as valid UTC
ISO-8601, and the parsed timestamps are non-decreasing in index order. -/
theorem c5_timestamps (env : Env)
    (hvalid : ∀ k, (env.clock k).Valid)
    (hmono : ∀ j k, j ≤ k → (env.clock j).key ≤ (env.clock k).key) :
    ∀ rs ∈ pushedBatches (Src.main env).2,
      (∀ j, (hj : j < rs.length) →
        getField (rs.get ⟨j, hj⟩) "timestamp" = some (.str (env.clock j).isoformat) ∧
        parseIsoUtc (env.clock j).isoformat.data = some (env.clock j)) ∧
      (∀ j k, (hj : j < rs.length) → (hk : k < rs.length) → j ≤ k →
        ∃ a b, tsKey (rs.get ⟨j, hj⟩) = some a ∧ tsKey (rs.get ⟨k, hk⟩) = some b ∧ a ≤ b) := by
  intro rs hrs
  rcases run_cases env with hnone | ⟨raw, kvs, idxs, hinr, hraw, hr, hb⟩
  · rw [hnone] at hrs; simp at hrs
  · rw [hb] at hrs
    simp only [List.mem_singleton] at hrs
    subst hrs
    obtain ⟨n, hidxs⟩ := rangeOf_shape _ _ hr
    subst hidxs
    have hget : ∀ j, (hj : j < (((List.range n).map Int.ofNat).map
        (fun i => mkRecord i (resolvedStartUrl kvs) (env.clock i.toNat))).length) →
        (((List.range n).map Int.ofNat).map
          (fun i => mkRecord i (resolvedStartUrl kvs) (env.clock i.toNat))).get ⟨j, hj⟩ =
        mkRecord (Int.ofNat j) (resolvedStartUrl kvs) (env.clock j) := by
      intro j hj
      simp only [List.get_eq_getElem, List.getElem_map, List.getElem_range]
      have hnr : (Int.ofNat j).toNat = j := rfl
      rw [hnr]
    have hts : ∀ j, (hj : _) →
        getField ((((List.range n).map Int.ofNat).map
          (fun i => mkRecord i (resolvedStartUrl kvs) (env.clock i.toNat))).get ⟨j, hj⟩)
          "timestamp" = some (.str (env.clock j).isoformat) := by
      intro j hj
      rw [hget j hj]
      exact getField_mkRecord_timestamp _ _ _
    constructor
    · intro j hj
      refine ⟨hts j hj, ?_⟩
      exact parse_isoformat _ (hvalid j)
    · intro j k hj hk hjk
      refine ⟨(env.clock j).key, (env.clock k).key, ?_, ?_, hmono j k hjk⟩
      · simp only [tsKey, hts j hj, DateTime.isoformat]
        have : parseIsoUtc (String.mk (env.clock j).isoChars).data = some (env.clock j) :=
          parse_isoformat _ (hvalid j)
        simp only [this]
        rfl
      · simp only [tsKey, hts k hk, DateTime.isoformat]
        have : parseIsoUtc (String.mk (env.clock k).isoChars).data = some (env.clock k) :=
          parse_isoformat _ (hvalid k)
        simp only [this]
        rfl

theorem wrongType_range_error (env : Env) (kvs : List (String × Value)) (s : String)
    (hin : env.inputRes = .ok (.obj kvs))
    (hmax : findVal kvs "maxItems" = some (.str s)) :
    resolvedMaxItems kvs = .str s ∧
    (Src.main env).1 = .error .rangeTypeError ∧
    Event.logProcessing (resolvedStartUrl kvs) ∈ (Src.main env).2 ∧
    pushedBatches (Src.main env).2 = [] := by
  have hres : resolvedMaxItems kvs = .str s := resolved_maxItems_of_find kvs _ hmax
  have hr : rangeOf (dictGet kvs "maxItems" (Value.int 10)) = .error .rangeTypeError := by
    have h2 : rangeOf (resolvedMaxItems kvs) = .error .rangeTypeError := by rw [hres]; rfl
    exact h2
  have hmain : Src.main env = (.error .rangeTypeError,
      [.init, .logInput (.obj kvs), .logProcessing (resolvedStartUrl kvs), .finalize]) := by
    simp only [Src.main, mainBody, hin, truthy_obj, hr]
    rfl
  rw [hmain]
  refine ⟨hres, rfl, ?_, rfl⟩
  simp [resolvedStartUrl]

/-- C6: `startUrl` and `maxItems` are extracted by plain `dict.get` with
defaults and no validation, so a string-valued `maxItems` still resolves to
that string, and the run fails only at the loop bound (`range(max_items)`
raising `TypeError`), after the extraction and the processing log line. -/
theorem c6_wrong_type_fails_at_range (env : Env) (kvs : List (String × Value)) (s : String)
    (hin : env.inputRes = .ok (.obj kvs))
    (hmax : findVal kvs "maxItems" = some (.str s)) :
    resolvedMaxItems kvs = .str s ∧
    (Src.main env).1 = .error .rangeTypeError ∧
    Event.logProcessing (resolvedStartUrl kvs) ∈ (Src.main env).2 ∧
    pushedBatches (Src.main env).2 = [] :=
  wrongType_range_error env kvs s hin hmax

/-- C7: the trace always begins with the context manager's initialization
and ends with its finalization, on every exit path; and a failure of input
retrieval, of the loop bound on a malformed `maxItems`, or of the output
submission propagates out of `main` as that very error. -/
theorem c7_propagation_and_finalize (env : Env) :
    ((Src.main env).2.head? = some .init ∧ (Src.main env).2.getLast? = some .finalize) ∧
    (∀ e, env.inputRes = .error e → (Src.main env).1 = .error e) ∧
    (∀ kvs s, env.inputRes = .ok (.obj kvs) → findVal kvs "maxItems" = some (.str s) →
      (Src.main env).1 = .error .rangeTypeError) ∧
    (∀ rs e, rs ∈ pushedBatches (Src.main env).2 → env.pushRes rs = .error e →
      (Src.main env).1 = .error e) := by
  refine ⟨⟨rfl, ?_⟩, ?_, ?_, ?_⟩
  · show (Event.init :: (mainBody env).2 ++ [Event.finalize]).getLast? = some .finalize
    rw [show Event.init :: (mainBody env).2 ++ [Event.finalize] =
      (Event.init :: (mainBody env).2) ++ [Event.finalize] from rfl]
    rw [List.getLast?_concat]
  · intro e he
    simp [Src.main, mainBody, he]
  · intro kvs s hin hmax
    exact (wrongType_range_error env kvs s hin hmax).2.1
  · intro rs e hrs hp
    rcases run_cases env with hnone | ⟨raw, kvs, idxs, hinr, hraw, hr, hb⟩
    · rw [hnone] at hrs; simp at hrs
    · rw [hb] at hrs
      simp only [List.mem_singleton] at hrs
      subst hrs
      have hbody := mainBody_run env raw kvs idxs hinr hraw hr
      simp only [Src.main, hbody, hp]

/-- C8: all input keys other than `startUrl` and `maxItems` are ignored:
two runs whose input mappings agree on those two keys (presence and value)
and that share the clock and sink submit the same batches and produce the
same outcome. -/
theorem c8_other_keys_ignored (c : Nat → DateTime) (p : List Value → Except Err Unit)
    (kvs1 kvs2 : List (String × Value))
    (hs : findVal kvs1 "startUrl" = findVal kvs2 "startUrl")
    (hm : findVal kvs1 "maxItems" = findVal kvs2 "maxItems") :
    pushedBatches (Src.main ⟨.ok (.obj kvs1), c, p⟩).2 =
      pushedBatches (Src.main ⟨.ok (.obj kvs2), c, p⟩).2 ∧
    (Src.main ⟨.ok (.obj kvs1), c, p⟩).1 = (Src.main ⟨.ok (.obj kvs2), c, p⟩).1 := by
  have hu : resolvedStartUrl kvs1 = resolvedStartUrl kvs2 := by
    simp [resolvedStartUrl, dictGet, hs]
  have hmi : resolvedMaxItems kvs1 = resolvedMaxItems kvs2 := by
    simp [resolvedMaxItems, dictGet, hm]
  rcases hr1 : rangeOf (resolvedMaxItems kvs1) with e | idxs
  · have hr2 : rangeOf (resolvedMaxItems kvs2) = .error e := by rw [← hmi]; exact hr1
    have hr1' : rangeOf (dictGet kvs1 "maxItems" (Value.int 10)) = .error e := hr1
    have hr2' : rangeOf (dictGet kvs2 "maxItems" (Value.int 10)) = .error e := hr2
    constructor
    · simp [Src.main, mainBody, truthy_obj, hr1', hr2', pushedBatches]
    · simp [Src.main, mainBody, truthy_obj, hr1', hr2']
  · have hr2 : rangeOf (resolvedMaxItems kvs2) = .ok idxs := by rw [← hmi]; exact hr1
    have hb1 := mainBody_run ⟨.ok (.obj kvs1), c, p⟩ _ kvs1 idxs rfl (truthy_obj kvs1) hr1
    have hb2 := mainBody_run ⟨.ok (.obj kvs2), c, p⟩ _ kvs2 idxs rfl (truthy_obj kvs2) hr2
    have h1 := main_run_batches ⟨.ok (.obj kvs1), c, p⟩ _ kvs1 idxs rfl (truthy_obj kvs1) hr1
    have h2 := main_run_batches ⟨.ok (.obj kvs2), c, p⟩ _ kvs2 idxs rfl (truthy_obj kvs2) hr2
    constructor
    · rw [h1, h2, hu]
    · simp only [Src.main, hb1, hb2, hu]
      rcases hp : p (List.map (fun i => mkRecord i (resolvedStartUrl kvs2) (c i.toNat)) idxs) with e | u <;>
        simp only [hp]

/-- The output-record shape asserted by the spec's data model: exactly the
fields `index` (integer), `url` (string), `timestamp` (string parsing as
UTC ISO-8601). -/
def RecordWF (v : Value) : Prop :=
  ∃ (i : Int) (u t : String),
    v = .obj [("index", .int i), ("url", .str u), ("timestamp", .str t)] ∧
    (parseIsoUtc t.data).isSome

/-- A fixed wall-clock reading used by concrete runs. -/
def cDT : DateTime := ⟨2024, 1, 2, 3, 4, 5, 0⟩

/-- The fixed reading satisfies the datetime field bounds. -/
theorem cDT_valid : cDT.Valid := by decide

/-- A run whose input binds `startUrl` to the integer 5. -/
def cEnv9 : Env :=
  ⟨.ok (.obj [("startUrl", .int 5), ("maxItems", .int 1)]), fun _ => cDT, fun _ => .ok ()⟩

/-- C9 counterexample: with `startUrl` bound to the integer 5, the single
submitted record's `url` field holds that integer, so the record does not
match the spec's record shape, whose `url` field is a string. -/
theorem c9_counterexample :
    pushedBatches (Src.main cEnv9).2 = [[mkRecord 0 (.int 5) cDT]] ∧
    ¬ RecordWF (mkRecord 0 (.int 5) cDT) := by
  constructor
  · rfl
  · rintro ⟨i, u, t, heq, hparse⟩
    simp [mkRecord] at heq

/-- C9 (amended): every submitted record is a mapping with exactly the
three fields `index` (an integer), `url` (the resolved `startUrl` value,
a string whenever the input's `startUrl` is a string or absent), and
`timestamp` (a string parsing as UTC ISO-8601), created fresh per
iteration; records are immutable values, never modified after
construction. -/
theorem c9_record_shape (env : Env) (kvs : List (String × Value))
    (hin : env.inputRes = .ok (.obj kvs)) (hvalid : ∀ k, (env.clock k).Valid) :
    ((∃ u, findVal kvs "startUrl" = some (.str u)) ∨ findVal kvs "startUrl" = none →
      ∃ u, resolvedStartUrl kvs = .str u) ∧
    ∀ rs ∈ pushedBatches (Src.main env).2, ∀ r ∈ rs,
      ∃ (i : Int) (t : String),
        r = .obj [("index", .int i), ("url", resolvedStartUrl kvs),
          ("timestamp", .str t)] ∧
        (parseIsoUtc t.data).isSome := by
  constructor
  · rintro (⟨u, h⟩ | h)
    · exact ⟨u, by simp [resolvedStartUrl, dictGet, h]⟩
    · exact ⟨"https://example.com", by simp [resolvedStartUrl, dictGet, h]⟩
  · intro rs hrs r hr
    rcases run_cases env with hnone | ⟨raw, kvs2, idxs, hinr, hraw, hrange, hb⟩
    · rw [hnone] at hrs; simp at hrs
    · have hraweq : Value.obj kvs = raw := Except.ok.inj (hin.symm.trans hinr)
      subst hraweq
      rw [truthy_obj] at hraw
      have hkvs : kvs = kvs2 := Value.obj.inj hraw
      subst hkvs
      rw [hb] at hrs
      simp only [List.mem_singleton] at hrs
      subst hrs
      simp only [List.mem_map] at hr
      obtain ⟨i, hi, hrec⟩ := hr
      refine ⟨i, (env.clock i.toNat).isoformat, ?_, ?_⟩
      · rw [← hrec]; rfl
      · simp [DateTime.isoformat, parse_isoformat _ (hvalid i.toNat)]

/-- C10: the retrieved input is replaced by the empty mapping whenever it
is falsy, not only when it is None: a falsy input (0, "", false, [] or
Python's None) runs exactly like a missing input and yields the ten
default records. -/
theorem c10_falsy_input_like_missing (c : Nat → DateTime) (p : List Value → Except Err Unit)
    (v : Value) (hfalsy : v.truthy = false) :
    Src.main ⟨.ok v, c, p⟩ = Src.main ⟨.ok Value.null, c, p⟩ ∧
    pushedBatches (Src.main ⟨.ok v, c, p⟩).2 =
      [(List.range 10).map
        (fun i => mkRecord (Int.ofNat i) (.str "https://example.com") (c i))] := by
  have h1 : (if v.truthy then v else Value.obj []) = Value.obj [] := by
    rw [hfalsy]; simp
  have h2 : (if Value.null.truthy then Value.null else Value.obj []) = Value.obj [] := rfl
  have hmain : Src.main ⟨.ok v, c, p⟩ = Src.main ⟨.ok Value.null, c, p⟩ := by
    simp only [Src.main, mainBody, h1, h2]
  refine ⟨hmain, ?_⟩
  rw [hmain]
  simpa using (defaults_run ⟨.ok Value.null, c, p⟩ (Or.inr rfl)).2.2

/-- A run whose input requests three items. -/
def cEnv1 : Env := ⟨.ok (.obj [("maxItems", .int 3)]), fun _ => cDT, fun _ => .ok ()⟩

theorem c1_witness :
    cEnv1.inputRes = .ok (.obj [("maxItems", Value.int 3)]) ∧
    findVal [("maxItems", Value.int 3)] "maxItems" = some (.int (3 : Nat)) ∧
    ∃ rs, pushedBatches (Src.main cEnv1).2 = [rs] ∧ rs.length = 3 ∧
      rs.map (fun r => getField r "index") =
        (List.range 3).map (fun i => some (.int (Int.ofNat i))) :=
  ⟨rfl, rfl, c1_exact_count_and_indices cEnv1 [("maxItems", Value.int 3)] 3 rfl rfl⟩

/-- A run whose input requests a negative number of items. -/
def cEnv2 : Env := ⟨.ok (.obj [("maxItems", .int (-2))]), fun _ => cDT, fun _ => .ok ()⟩

theorem c2_witness :
    cEnv2.inputRes = .ok (.obj [("maxItems", Value.int (-2))]) ∧
    findVal [("maxItems", Value.int (-2))] "maxItems" = some (.int (-2)) ∧
    ∃ rs, pushedBatches (Src.main cEnv2).2 = [rs] ∧ rs.length = (-2 : Int).toNat ∧
      ((-2 : Int) ≤ 0 → rs = [] ∧
        (cEnv2.pushRes [] = .ok () → (Src.main cEnv2).1 = .ok ())) :=
  ⟨rfl, rfl, c2_nonpositive_zero_records cEnv2 [("maxItems", Value.int (-2))] (-2) rfl rfl⟩

/-- A run whose input supplies both `startUrl` and `maxItems`. -/
def cEnv3 : Env :=
  ⟨.ok (.obj [("startUrl", .str "https://foo.test"), ("maxItems", .int 2)]),
   fun _ => cDT, fun _ => .ok ()⟩

theorem c3_witness :
    cEnv3.inputRes =
      .ok (.obj [("startUrl", Value.str "https://foo.test"), ("maxItems", Value.int 2)]) ∧
    (((∀ v, findVal [("startUrl", Value.str "https://foo.test"), ("maxItems", Value.int 2)]
          "startUrl" = some v →
        resolvedStartUrl [("startUrl", Value.str "https://foo.test"), ("maxItems", Value.int 2)] = v) ∧
      (findVal [("startUrl", Value.str "https://foo.test"), ("maxItems", Value.int 2)]
          "startUrl" = none →
        resolvedStartUrl [("startUrl", Value.str "https://foo.test"), ("maxItems", Value.int 2)] =
          .str "https://example.com")) ∧
     ∀ rs ∈ pushedBatches (Src.main cEnv3).2, ∀ r ∈ rs,
       getField r "url" =
         some (resolvedStartUrl
           [("startUrl", Value.str "https://foo.test"), ("maxItems", Value.int 2)])) :=
  ⟨rfl, c3_url_field cEnv3 _ rfl⟩

/-- A run with the empty input mapping. -/
def cEnv4 : Env := ⟨.ok (.obj []), fun _ => cDT, fun _ => .ok ()⟩

theorem c4_witness :
    cEnv4.inputRes = .ok (.obj []) ∧
    (resolvedStartUrl [] = .str "https://example.com" ∧
     resolvedMaxItems [] = .int 10 ∧
     pushedBatches (Src.main cEnv4).2 =
       [(List.range 10).map
         (fun i => mkRecord (Int.ofNat i) (.str "https://example.com") (cEnv4.clock i))]) :=
  ⟨rfl, c4_defaults cEnv4 (Or.inl rfl)⟩

/-- A run whose input requests two items, under a constant wall clock. -/
def cEnv5 : Env := ⟨.ok (.obj [("maxItems", .int 2)]), fun _ => cDT, fun _ => .ok ()⟩

theorem c5_witness :
    cDT.Valid ∧
    ∀ rs ∈ pushedBatches (Src.main cEnv5).2,
      (∀ j, (hj : j < rs.length) →
        getField (rs.get ⟨j, hj⟩) "timestamp" = some (.str (cEnv5.clock j).isoformat) ∧
        parseIsoUtc (cEnv5.clock j).isoformat.data = some (cEnv5.clock j)) ∧
      (∀ j k, (hj : j < rs.length) → (hk : k < rs.length) → j ≤ k →
        ∃ a b, tsKey (rs.get ⟨j, hj⟩) = some a ∧ tsKey (rs.get ⟨k, hk⟩) = some b ∧ a ≤ b) :=
  ⟨cDT_valid, c5_timestamps cEnv5 (fun _ => cDT_valid) (fun _ _ _ => le_rfl)⟩

/-- A run whose input binds `maxItems` to a string. -/
def cEnv6 : Env := ⟨.ok (.obj [("maxItems", .str "ten")]), fun _ => cDT, fun _ => .ok ()⟩

theorem c6_witness :
    cEnv6.inputRes = .ok (.obj [("maxItems", Value.str "ten")]) ∧
    (resolvedMaxItems [("maxItems", Value.str "ten")] = .str "ten" ∧
     (Src.main cEnv6).1 = .error .rangeTypeError ∧
     Event.logProcessing (resolvedStartUrl [("maxItems", Value.str "ten")]) ∈ (Src.main cEnv6).2 ∧
     pushedBatches (Src.main cEnv6).2 = []) :=
  ⟨rfl, c6_wrong_type_fails_at_range cEnv6 [("maxItems", Value.str "ten")] "ten" rfl rfl⟩

/-- A run whose input retrieval raises. -/
def cEnv7 : Env := ⟨.error (.sdkFailure "boom"), fun _ => cDT, fun _ => .ok ()⟩

theorem c7_witness :
    ((Src.main cEnv7).2.head? = some .init ∧ (Src.main cEnv7).2.getLast? = some .finalize) ∧
    (Src.main cEnv7).1 = .error (.sdkFailure "boom") :=
  ⟨(c7_propagation_and_finalize cEnv7).1, (c7_propagation_and_finalize cEnv7).2.1 _ rfl⟩

theorem c8_witness :
    findVal [("other", Value.int 1), ("maxItems", Value.int 2)] "startUrl" =
      findVal [("maxItems", Value.int 2), ("extra", Value.str "x")] "startUrl" ∧
    findVal [("other", Value.int 1), ("maxItems", Value.int 2)] "maxItems" =
      findVal [("maxItems", Value.int 2), ("extra", Value.str "x")] "maxItems" ∧
    (pushedBatches (Src.main ⟨.ok (.obj [("other", Value.int 1), ("maxItems", Value.int 2)]),
        fun _ => cDT, fun _ => .ok ()⟩).2 =
      pushedBatches (Src.main ⟨.ok (.obj [("maxItems", Value.int 2), ("extra", Value.str "x")]),
        fun _ => cDT, fun _ => .ok ()⟩).2 ∧
     (Src.main ⟨.ok (.obj [("other", Value.int 1), ("maxItems", Value.int 2)]),
        fun _ => cDT, fun _ => .ok ()⟩).1 =
      (Src.main ⟨.ok (.obj [("maxItems", Value.int 2), ("extra", Value.str "x")]),
        fun _ => cDT, fun _ => .ok ()⟩).1) :=
  ⟨rfl, rfl, c8_other_keys_ignored (fun _ => cDT) (fun _ => .ok ())
    [("other", Value.int 1), ("maxItems", Value.int 2)]
    [("maxItems", Value.int 2), ("extra", Value.str "x")] rfl rfl⟩

/-- A run whose input supplies a string `startUrl` only. -/
def cEnv9w : Env :=
  ⟨.ok (.obj [("startUrl", .str "https://foo.test")]), fun _ => cDT, fun _ => .ok ()⟩

theorem c9_witness :
    cEnv9w.inputRes = .ok (.obj [("startUrl", Value.str "https://foo.test")]) ∧
    (((∃ u, findVal [("startUrl", Value.str "https://foo.test")] "startUrl" =
          some (.str u)) ∨
        findVal [("startUrl", Value.str "https://foo.test")] "startUrl" = none →
      ∃ u, resolvedStartUrl [("startUrl", Value.str "https://foo.test")] = .str u) ∧
     ∀ rs ∈ pushedBatches (Src.main cEnv9w).2, ∀ r ∈ rs,
       ∃ (i : Int) (t : String),
         r = .obj [("index", .int i),
           ("url", resolvedStartUrl [("startUrl", Value.str "https://foo.test")]),
           ("timestamp", .str t)] ∧
         (parseIsoUtc t.data).isSome) :=
  ⟨rfl, c9_record_shape cEnv9w _ rfl (fun _ => cDT_valid)⟩

theorem c10_witness :
    (Value.int 0).truthy = false ∧
    (Src.main ⟨.ok (Value.int 0), fun _ => cDT, fun _ => .ok ()⟩ =
      Src.main ⟨.ok Value.null, fun _ => cDT, fun _ => .ok ()⟩ ∧
     pushedBatches (Src.main ⟨.ok (Value.int 0), fun _ => cDT, fun _ => .ok ()⟩).2 =
       [(List.range 10).map
         (fun i => mkRecord (Int.ofNat i) (.str "https://example.com") ((fun _ => cDT) i))]) :=
  ⟨rfl, c10_falsy_input_like_missing (fun _ => cDT) (fun _ => .ok ()) (Value.int 0) rfl⟩
